import Mathlib

/-!
Shallow embedding of the research-cache-synthesis pipeline of the
Sales-call-prep-assistant backend, together with proofs of the spec claims.

Python dynamic values (JSON payloads, dict-typed fields) are modelled by the
inductive type `JsonVal`; Python `datetime` instants are modelled as integer
seconds since an epoch; Python floats that carry confidence scores are
modelled as exact rationals.  Fallible Python code (`try`/`except`) is
modelled with `Except`/`Option`, and the outcome of an external agent
invocation is an explicit input of each embedded function.
-/

namespace SalesPrep

/-- Model of a Python/JSON dynamic value. Numbers are modelled as exact
rationals. -/
inductive JsonVal where
  | null : JsonVal
  | bool (b : Bool) : JsonVal
  | num (q : ℚ) : JsonVal
  | str (s : String) : JsonVal
  | arr (l : List JsonVal) : JsonVal
  | obj (fields : List (String × JsonVal)) : JsonVal

/-- `dict.get(key)` on a modelled Python dict: first binding wins. -/
def JsonVal.lookup (fields : List (String × JsonVal)) (key : String) : Option JsonVal :=
  match fields with
  | [] => none
  | (k, v) :: rest => if k == key then some v else JsonVal.lookup rest key

/-- `dict.get(key, default)`. -/
def JsonVal.getD (fields : List (String × JsonVal)) (key : String) (default : JsonVal) :
    JsonVal :=
  (JsonVal.lookup fields key).getD default

/-- Whether a modelled dict has a key (`key in d`). -/
def JsonVal.hasKey (fields : List (String × JsonVal)) (key : String) : Bool :=
  (JsonVal.lookup fields key).isSome

/-! ### Python string helpers -/

/-- `str.lower()` on one character, modelled for the ASCII range (the only
range the pipeline's markers and keys use). -/
def pyCharLower (c : Char) : Char :=
  if 65 ≤ c.toNat && c.toNat ≤ 90 then Char.ofNat (c.toNat + 32) else c

/-- `str.lower()`. -/
def pyLower (s : String) : String := String.mk (s.toList.map pyCharLower)

/-- Does `needle` occur at the start of `hay`? (helper for substring search). -/
def matchesAt : List Char → List Char → Bool
  | [], _ => true
  | _ :: _, [] => false
  | a :: as, b :: bs => a == b && matchesAt as bs

/-- Substring containment on char lists (`needle in hay` in Python). -/
def hasSubList (needle : List Char) : List Char → Bool
  | [] => needle.isEmpty
  | c :: rest => matchesAt needle (c :: rest) || hasSubList needle rest

/-- Python's `needle in hay` for strings. -/
def pyContains (hay needle : String) : Bool :=
  hasSubList needle.toList hay.toList

/-- Characters treated as whitespace by Python's `str.strip()` / `str.split()`. -/
def isPySpace (c : Char) : Bool :=
  c == ' ' || c == '\t' || c == '\n' || c == '\r' ||
    c == Char.ofNat 11 || c == Char.ofNat 12

/-- `str.strip()` (no argument: strips whitespace on both ends). -/
def pyStrip (s : String) : String :=
  String.mk (((s.toList.dropWhile isPySpace).reverse.dropWhile isPySpace).reverse)

/-- Helper for `str.split()`: cut a char list into maximal runs separated by
whitespace, discarding empty runs. -/
def splitRuns : List Char → List (List Char)
  | [] => []
  | c :: rest =>
    if isPySpace c then splitRuns rest
    else
      match splitRuns rest with
      | [] => [[c]]
      | w :: ws =>
        match rest with
        | [] => [[c]]
        | d :: _ => if isPySpace d then [c] :: w :: ws else (c :: w) :: ws

/-- Python's `str.split()` with no argument. -/
def pySplit (s : String) : List String :=
  (splitRuns s.toList).map String.mk

/-- `str.startswith(p)`. -/
def pyStartsWith (s p : String) : Bool := matchesAt p.toList s.toList

/-! ### Company-name normalization (`src/backend/src/utils/normalise.py`)

`re.sub(r"[^a-z0-9]+", "-", name.lower()).strip("-")`. -/

/-- Is `c` in the regex class `[a-z0-9]`? -/
def isLowerAlnum (c : Char) : Bool :=
  (97 ≤ c.toNat && c.toNat ≤ 122) || (48 ≤ c.toNat && c.toNat ≤ 57)

/-- `re.sub(r"[^a-z0-9]+", "-", ·)` on char lists: each maximal run of
characters outside `[a-z0-9]` becomes one hyphen.  The boolean argument
records whether the previous character was part of such a run. -/
def subRuns : List Char → Bool → List Char
  | [], _ => []
  | c :: rest, inRun =>
    if isLowerAlnum c then c :: subRuns rest false
    else if inRun then subRuns rest true
    else '-' :: subRuns rest true

/-- `.strip("-")` on the front of a char list. -/
def dropLeadHyphens (l : List Char) : List Char := l.dropWhile (· == '-')

/-- `.strip("-")` on the back of a char list. -/
def dropTailHyphens : List Char → List Char
  | [] => []
  | c :: rest =>
    match dropTailHyphens rest with
    | [] => if c == '-' then [] else [c]
    | out => c :: out

/-- Core of `normalize_company_name` on char lists. -/
def normalizeCore (l : List Char) : List Char :=
  dropTailHyphens (dropLeadHyphens (subRuns (l.map pyCharLower) false))

/-- `normalize_company_name` (`src/backend/src/utils/normalise.py`). -/
def normalize_company_name (name : String) : String :=
  String.mk (normalizeCore name.toList)

/-! ### A model of `json.loads`

A recursive-descent parser over char lists, with fuel for termination.  It
covers the JSON fragment the pipeline exchanges (objects, arrays, strings
with simple escapes, decimal numbers, booleans, null); inputs outside this
fragment are rejected, which only makes the parse-failure branches of the
embedded functions reachable on more inputs. -/

/-- Skip JSON whitespace. -/
def skipWs (l : List Char) : List Char :=
  l.dropWhile (fun c => c == ' ' || c == '\n' || c == '\t' || c == '\r')

/-- Decode a one-character JSON string escape. -/
def decodeEscape (c : Char) : Option Char :=
  match c with
  | '"' => some '"'
  | '\\' => some '\\'
  | '/' => some '/'
  | 'n' => some '\n'
  | 't' => some '\t'
  | 'r' => some '\r'
  | 'b' => some (Char.ofNat 8)
  | 'f' => some (Char.ofNat 12)
  | _ => none

/-- Parse the body of a JSON string literal (after the opening quote). -/
def parseStrChars : List Char → Option (List Char × List Char)
  | [] => none
  | '"' :: rest => some ([], rest)
  | '\\' :: e :: rest =>
    (decodeEscape e).bind fun c =>
      (parseStrChars rest).map (fun p => (c :: p.1, p.2))
  | c :: rest => (parseStrChars rest).map (fun p => (c :: p.1, p.2))

/-- Digits to a natural number. -/
def digitsToNat (ds : List Char) : ℕ :=
  ds.foldl (fun n c => n * 10 + (c.toNat - 48)) 0

/-- Parse a JSON number (integer or decimal fraction). -/
def parseNum (l : List Char) : Option (ℚ × List Char) :=
  let p := match l with
    | '-' :: r => (true, r)
    | _ => (false, l)
  let ds := p.2.takeWhile Char.isDigit
  let l2 := p.2.dropWhile Char.isDigit
  if ds.isEmpty then none
  else
    let intPart : ℚ := (digitsToNat ds : ℚ)
    match l2 with
    | '.' :: l3 =>
      let fs := l3.takeWhile Char.isDigit
      let l4 := l3.dropWhile Char.isDigit
      if fs.isEmpty then none
      else
        let q := intPart + (digitsToNat fs : ℚ) / ((10 : ℚ) ^ fs.length)
        some (if p.1 then -q else q, l4)
    | _ => some (if p.1 then -intPart else intPart, l2)

mutual

/-- Parse one JSON value. -/
def parseVal : ℕ → List Char → Option (JsonVal × List Char)
  | 0, _ => none
  | fuel + 1, l =>
    let l := skipWs l
    if matchesAt "null".toList l then some (.null, l.drop 4)
    else if matchesAt "true".toList l then some (.bool true, l.drop 4)
    else if matchesAt "false".toList l then some (.bool false, l.drop 5)
    else
      match l with
      | '"' :: rest => (parseStrChars rest).map (fun p => (.str (String.mk p.1), p.2))
      | '[' :: rest =>
        let r := skipWs rest
        (match r with
         | ']' :: r2 => some (.arr [], r2)
         | _ => (parseElems fuel r).map (fun p => (.arr p.1, p.2)))
      | '{' :: rest =>
        let r := skipWs rest
        (match r with
         | '}' :: r2 => some (.obj [], r2)
         | _ => (parseMembers fuel r).map (fun p => (.obj p.1, p.2)))
      | c :: _ => if c == '-' || c.isDigit then (parseNum l).map (fun p => (.num p.1, p.2)) else none
      | [] => none

/-- Parse the elements of a (non-empty) JSON array, up to `]`. -/
def parseElems : ℕ → List Char → Option (List JsonVal × List Char)
  | 0, _ => none
  | fuel + 1, l =>
    (parseVal fuel l).bind fun p =>
      match skipWs p.2 with
      | ',' :: r2 => (parseElems fuel (skipWs r2)).map (fun q => (p.1 :: q.1, q.2))
      | ']' :: r2 => some ([p.1], r2)
      | _ => none

/-- Parse the members of a (non-empty) JSON object, up to the closing brace. -/
def parseMembers : ℕ → List Char → Option (List (String × JsonVal) × List Char)
  | 0, _ => none
  | fuel + 1, l =>
    match skipWs l with
    | '"' :: rest =>
      (parseStrChars rest).bind fun kp =>
        match skipWs kp.2 with
        | ':' :: r2 =>
          (parseVal fuel (skipWs r2)).bind fun vp =>
            (match skipWs vp.2 with
             | ',' :: r3 => (parseMembers fuel (skipWs r3)).map
                 (fun q => ((String.mk kp.1, vp.1) :: q.1, q.2))
             | '}' :: r3 => some ([(String.mk kp.1, vp.1)], r3)
             | _ => none)
        | _ => none
    | _ => none

end

/-- Model of `json.loads`: parse a full JSON document, requiring only
whitespace after the value. -/
def jsonParse (s : String) : Option JsonVal :=
  match parseVal (s.toList.length + 2) s.toList with
  | some (v, rest) => if skipWs rest = [] then some v else none
  | none => none

/-! ### Retry runner (`src/backend/src/utils/retry.py` and the identical
copy in `src/backend/src/agents/research_orchestrator/agent.py`)

The external agent call is modelled as a function from the attempt index to
its outcome (a returned result or a raised error message).  The runner's
observable behaviour is the final outcome plus the number of invocations
made and the backoff delays slept, in order. -/

/-- A raw agent result: `hasattr(result, "data")`, `hasattr(result, "output")`,
or neither (the code then falls back to `str(result)`). -/
inductive AgentResult where
  | withData (v : JsonVal)
  | withOutput (v : JsonVal)
  | plain (s : String)

/-- `result.data` / `result.output` / `str(result)` extraction performed by
both agents. -/
def resultPayload : AgentResult → JsonVal
  | .withData v => v
  | .withOutput v => v
  | .plain s => .str s

/-- `"429" in error_msg or "rate limit" in error_msg`. -/
def isRateLimitMsg (m : String) : Bool := pyContains m "429" || pyContains m "rate limit"

/-- `"quota" in error_msg or "billing" in error_msg`. -/
def isQuotaMsg (m : String) : Bool := pyContains m "quota" || pyContains m "billing"

/-- `"invalid" in error_msg and "argument" in error_msg`. -/
def isInvalidArgMsg (m : String) : Bool := pyContains m "invalid" && pyContains m "argument"

/-- Observable outcome of `run_agent_with_retry`. -/
structure RetryTrace where
  result : Except String AgentResult
  attempts : ℕ
  sleeps : List ℕ

/-- The retry loop; `done` is the Python loop variable `attempt`,
`remaining` the iterations left, `lastErr` the captured `last_error`, and
`sleeps` the delays slept so far. -/
def runRetryAux (invoke : ℕ → Except String AgentResult) (maxRetries : ℕ) :
    ℕ → ℕ → Option String → List ℕ → RetryTrace
  | 0, done, lastErr, sleeps => ⟨.error (lastErr.getD "NoneType: None"), done, sleeps⟩
  | remaining + 1, done, _, sleeps =>
    match invoke done with
    | .ok r => ⟨.ok r, done + 1, sleeps⟩
    | .error e =>
      let msg := pyLower e
      if isInvalidArgMsg msg then ⟨.error e, done + 1, sleeps⟩
      else if done < maxRetries - 1 then
        let delay := 2 ^ done
        if isRateLimitMsg msg then
          runRetryAux invoke maxRetries remaining (done + 1) (some e) (sleeps ++ [min (delay * 2) 30])
        else if isQuotaMsg msg then ⟨.error e, done + 1, sleeps⟩
        else runRetryAux invoke maxRetries remaining (done + 1) (some e) (sleeps ++ [delay])
      else ⟨.error e, done + 1, sleeps⟩

/-- `run_agent_with_retry(agent, prompt, max_retries)`: the agent and prompt
are abstracted into `invoke`. -/
def run_agent_with_retry (invoke : ℕ → Except String AgentResult) (maxRetries : ℕ) :
    RetryTrace :=
  runRetryAux invoke maxRetries maxRetries 0 none []

/-! ### Cache service (`src/backend/src/services/cache_service.py`)

Rows of the `company_cache` table.  The stored ISO-8601 `last_updated` text
is modelled by the instant it denotes (integer seconds), or `none` when
`datetime.fromisoformat` would raise on it. -/

/-- `CacheService.cache_ttl_days`. -/
def cache_ttl_days : ℕ := 7

/-- Seconds per day, for the `timedelta.days` computation; Python's
`timedelta.days` floor-divides by it, and for this positive divisor floor
division coincides with Lean's Euclidean `Int` division. -/
def secondsPerDay : ℤ := 86400

/-- A row of `company_cache`. -/
structure CacheRow where
  company_name_normalized : String
  company_data : JsonVal
  confidence_score : ℚ
  source_urls : List String
  last_updated : Option ℤ

/-- What `get_cached_company_data` hands back on a hit. -/
structure CacheResult where
  company_data : JsonVal
  confidence_score : ℚ
  source_urls : List String
  last_updated : Option ℤ
  cache_status : String

/-- The `try` body of `get_cached_company_data`: the select (which may
itself raise, modelled by the `fetch` argument), the `fromisoformat` parse
(which may raise) and the freshness branch. -/
def getCachedBody (fetch : Except String (List CacheRow)) (key : String) (now : ℤ) :
    Except String (Option CacheResult) :=
  match fetch with
  | .error e => .error e
  | .ok rows =>
    match (rows.filter (fun r => r.company_name_normalized == key)).head? with
    | none => .ok none
    | some row =>
      match row.last_updated with
      | none => .error "Invalid isoformat string"
      | some t0 =>
        let ageDays := (now - t0) / secondsPerDay
        if ageDays < (cache_ttl_days : ℤ) then
          .ok (some ⟨row.company_data, row.confidence_score, row.source_urls, some t0, "fresh"⟩)
        else
          .ok (some ⟨row.company_data, row.confidence_score, row.source_urls, some t0, "stale"⟩)

/-- `get_cached_company_data`: any exception in the body is caught and
turned into `None`. -/
def get_cached_company_data (fetch : Except String (List CacheRow)) (key : String)
    (now : ℤ) : Option CacheResult :=
  match getCachedBody fetch key now with
  | .ok r => r
  | .error _ => none

/-- The row `cache_company_data` builds before the upsert; the confidence is
clamped with `max(0.0, min(1.0, confidence_score))`. -/
def cacheRowFor (key : String) (data : JsonVal) (conf : ℚ) (sources : List String)
    (now : ℤ) : CacheRow :=
  { company_name_normalized := key
    company_data := data
    confidence_score := max 0 (min 1 conf)
    source_urls := sources
    last_updated := some now }

/-- Upsert with `on_conflict="company_name_normalized"`: replace the matching
row if one exists, else append. -/
def upsertRow (db : List CacheRow) (row : CacheRow) : List CacheRow :=
  if db.any (fun r => r.company_name_normalized == row.company_name_normalized) then
    db.map (fun r => if r.company_name_normalized == row.company_name_normalized then row else r)
  else db ++ [row]

/-- `cache_company_data`: performs the upsert and returns `true`, or leaves
the table unchanged and returns `false` when the storage layer raises
(modelled by `storageOk`). -/
def cache_company_data (db : List CacheRow) (key : String) (data : JsonVal) (conf : ℚ)
    (sources : List String) (now : ℤ) (storageOk : Bool) : List CacheRow × Bool :=
  if storageOk then (upsertRow db (cacheRowFor key data conf sources now), true)
  else (db, false)

/-! ### Report persistence (`src/backend/src/services/supabase_service.py`) -/

/-- The record `save_meeting_prep` inserts into `meeting_preps`. -/
structure MeetingPrepRecord where
  user_id : String
  company_name : String
  company_name_normalized : String
  meeting_objective : String
  meeting_date : Option String
  contact_person_name : Option String
  contact_linkedin_url : Option String
  prep_data : JsonVal
  overall_confidence : ℚ
  cache_hit : Bool

/-- The record construction inside `save_meeting_prep`, with the
`max(0.0, min(1.0, overall_confidence))` clamp. -/
def save_meeting_prep_record (user_id company_name ncn mo : String)
    (md cpn clu : Option String) (prep_data : JsonVal) (oc : ℚ) (cache_hit : Bool) :
    MeetingPrepRecord :=
  { user_id := user_id
    company_name := company_name
    company_name_normalized := ncn
    meeting_objective := mo
    meeting_date := md
    contact_person_name := cpn
    contact_linkedin_url := clu
    prep_data := prep_data
    overall_confidence := max 0 (min 1 oc)
    cache_hit := cache_hit }

/-! ### Portfolio search (`SupabaseService.search_portfolio_projects` and
`SupabaseService._calculate_relevance`) -/

/-- A portfolio project, with the four fields the relevance score reads. -/
structure Project where
  name : String
  client_industry : String
  description : String
  key_outcomes : String

/-- `" ".join([...fields...]).lower()`. -/
def projectText (p : Project) : String :=
  pyLower (String.intercalate " " [p.name, p.client_industry, p.description, p.key_outcomes])

/-- `_calculate_relevance(query, project)`: fraction of the query's
whitespace-split terms occurring as substrings of the project text,
`0.0` when the query has no terms. -/
def calculate_relevance (query : String) (p : Project) : ℚ :=
  let query_terms := pySplit (pyLower query)
  let matchCount := query_terms.countP (fun t => pyContains (projectText p) t)
  if query_terms.isEmpty then 0 else (matchCount : ℚ) / (query_terms.length : ℚ)

/-- One entry of the list `search_portfolio_projects` returns. -/
structure SearchMatch where
  index : ℕ
  project : Project
  relevance_score : ℚ

/-- Stable descending insertion (matches the stability of Python's
`list.sort(key=..., reverse=True)`). -/
def insertByScoreDesc (x : SearchMatch) : List SearchMatch → List SearchMatch
  | [] => [x]
  | y :: ys =>
    if x.relevance_score > y.relevance_score then x :: y :: ys
    else y :: insertByScoreDesc x ys

/-- Stable sort by `relevance_score`, descending. -/
def sortByScoreDesc : List SearchMatch → List SearchMatch
  | [] => []
  | x :: xs => insertByScoreDesc x (sortByScoreDesc xs)

/-- `search_portfolio_projects(user_id, search_query, limit)` after the
portfolio fetch: score each project, keep scores `> 0.3`, sort descending,
return the first `limit`. -/
def search_portfolio_projects (portfolio : List Project) (search_query : String)
    (limit : ℕ) : List SearchMatch :=
  let scored := (portfolio.enum.map
      (fun ip => SearchMatch.mk ip.1 ip.2 (calculate_relevance search_query ip.2))).filter
    (fun m => m.relevance_score > 3 / 10)
  (sortByScoreDesc scored).take limit

/-! ### The PrepReport schema (`src/backend/src/schemas/prep_report.py`)

Each pydantic model becomes a structure; `Field(..., ge=a, le=b)`
constraints become checks in the validator below. -/

/-- `PortfolioMatch` (schema). -/
structure PortfolioMatch where
  project_name : String
  relevance : String
  relevance_score : ℚ

/-- `PainPoint` (schema). -/
structure PainPoint where
  pain : String
  urgency : ℤ
  impact : ℤ
  evidence : List String

/-- `ExecutiveSummary` (schema). -/
structure ExecutiveSummary where
  the_client : String
  our_angle : String
  call_goal : String
  confidence : ℚ

/-- `StrategicNarrative` (schema). -/
structure StrategicNarrative where
  dream_outcome : String
  proof_of_achievement : List PortfolioMatch
  pain_points : List PainPoint
  confidence : ℚ

/-- `TalkingPoints` (schema). -/
structure TalkingPoints where
  opening_hook : String
  key_points : List String
  competitive_context : String
  confidence : ℚ

/-- `QuestionsToAsk` (schema). -/
structure QuestionsToAsk where
  strategic : List String
  technical : List String
  business_impact : List String
  qualification : List String
  confidence : ℚ

/-- `DecisionMaker` (schema). -/
structure DecisionMaker where
  name : String
  title : String
  linkedin_url : Option String
  background_points : List String

/-- `DecisionMakers` (schema). -/
structure DecisionMakers where
  profiles : Option (List DecisionMaker)
  confidence : ℚ

/-- `NewsItem` (schema). -/
structure NewsItem where
  headline : String
  date : String
  significance : String

/-- `CompanyIntelligence` (schema). -/
structure CompanyIntelligence where
  industry : String
  company_size : String
  recent_news : List NewsItem
  strategic_initiatives : List String
  confidence : ℚ

/-- `PrepReport` (schema). -/
structure PrepReport where
  executive_summary : ExecutiveSummary
  strategic_narrative : StrategicNarrative
  talking_points : TalkingPoints
  questions_to_ask : QuestionsToAsk
  decision_makers : DecisionMakers
  company_intelligence : CompanyIntelligence
  research_limitations : List String
  overall_confidence : ℚ
  sources : List String

/-! #### Validator: `PrepReport.model_validate` over `JsonVal` -/

/-- Validate a required string field. -/
def vStr (v : Option JsonVal) : Option String :=
  match v with
  | some (.str s) => some s
  | _ => none

/-- Validate an optional string field (absent or `null` become `none`). -/
def vOptStr (v : Option JsonVal) : Option (Option String) :=
  match v with
  | none => some none
  | some .null => some none
  | some (.str s) => some (some s)
  | _ => none

/-- Validate a required `float` field with `ge=lo, le=hi`. -/
def vBoundedNum (lo hi : ℚ) (v : Option JsonVal) : Option ℚ :=
  match v with
  | some (.num q) => if lo ≤ q ∧ q ≤ hi then some q else none
  | _ => none

/-- Validate a required `int` field with `ge=lo, le=hi` (the JSON number
must be integral). -/
def vBoundedInt (lo hi : ℤ) (v : Option JsonVal) : Option ℤ :=
  match v with
  | some (.num q) =>
    if q.den = 1 ∧ lo ≤ q.num ∧ q.num ≤ hi then some q.num else none
  | _ => none

/-- Validate every element of a list (`Option`-valued `map`). -/
def mapOpt (f : α → Option β) : List α → Option (List β)
  | [] => some []
  | a :: as => (f a).bind fun b => (mapOpt f as).map fun bs => b :: bs

/-- Validate a list field with `default_factory=list` (absent means `[]`). -/
def vListD (f : JsonVal → Option α) (v : Option JsonVal) : Option (List α) :=
  match v with
  | none => some []
  | some (.arr l) => mapOpt f l
  | _ => none

/-- Validate an element that must be a string. -/
def vStrElem (v : JsonVal) : Option String :=
  match v with
  | .str s => some s
  | _ => none

/-- Validate a `PortfolioMatch` element. -/
def vPortfolioMatch (v : JsonVal) : Option PortfolioMatch :=
  match v with
  | .obj f =>
    match vStr (JsonVal.lookup f "project_name"), vStr (JsonVal.lookup f "relevance"),
        vBoundedNum 0 1 (JsonVal.lookup f "relevance_score") with
    | some a, some b, some c => some ⟨a, b, c⟩
    | _, _, _ => none
  | _ => none

/-- Validate a `PainPoint` element. -/
def vPainPoint (v : JsonVal) : Option PainPoint :=
  match v with
  | .obj f =>
    match vStr (JsonVal.lookup f "pain"), vBoundedInt 1 5 (JsonVal.lookup f "urgency"),
        vBoundedInt 1 5 (JsonVal.lookup f "impact"),
        vListD vStrElem (JsonVal.lookup f "evidence") with
    | some a, some b, some c, some d => some ⟨a, b, c, d⟩
    | _, _, _, _ => none
  | _ => none

/-- Validate the `executive_summary` section. -/
def vExecutiveSummary (v : JsonVal) : Option ExecutiveSummary :=
  match v with
  | .obj f =>
    match vStr (JsonVal.lookup f "the_client"), vStr (JsonVal.lookup f "our_angle"),
        vStr (JsonVal.lookup f "call_goal"), vBoundedNum 0 1 (JsonVal.lookup f "confidence") with
    | some a, some b, some c, some d => some ⟨a, b, c, d⟩
    | _, _, _, _ => none
  | _ => none

/-- Validate the `strategic_narrative` section. -/
def vStrategicNarrative (v : JsonVal) : Option StrategicNarrative :=
  match v with
  | .obj f =>
    match vStr (JsonVal.lookup f "dream_outcome"),
        vListD vPortfolioMatch (JsonVal.lookup f "proof_of_achievement"),
        vListD vPainPoint (JsonVal.lookup f "pain_points"),
        vBoundedNum 0 1 (JsonVal.lookup f "confidence") with
    | some a, some b, some c, some d => some ⟨a, b, c, d⟩
    | _, _, _, _ => none
  | _ => none

/-- Validate the `talking_points` section. -/
def vTalkingPoints (v : JsonVal) : Option TalkingPoints :=
  match v with
  | .obj f =>
    match vStr (JsonVal.lookup f "opening_hook"), vListD vStrElem (JsonVal.lookup f "key_points"),
        vStr (JsonVal.lookup f "competitive_context"),
        vBoundedNum 0 1 (JsonVal.lookup f "confidence") with
    | some a, some b, some c, some d => some ⟨a, b, c, d⟩
    | _, _, _, _ => none
  | _ => none

/-- Validate the `questions_to_ask` section. -/
def vQuestionsToAsk (v : JsonVal) : Option QuestionsToAsk :=
  match v with
  | .obj f =>
    match vListD vStrElem (JsonVal.lookup f "strategic"),
        vListD vStrElem (JsonVal.lookup f "technical"),
        vListD vStrElem (JsonVal.lookup f "business_impact"),
        vListD vStrElem (JsonVal.lookup f "qualification"),
        vBoundedNum 0 1 (JsonVal.lookup f "confidence") with
    | some a, some b, some c, some d, some e => some ⟨a, b, c, d, e⟩
    | _, _, _, _, _ => none
  | _ => none

/-- Validate a `DecisionMaker` element. -/
def vDecisionMaker (v : JsonVal) : Option DecisionMaker :=
  match v with
  | .obj f =>
    match vStr (JsonVal.lookup f "name"), vStr (JsonVal.lookup f "title"),
        vOptStr (JsonVal.lookup f "linkedin_url"),
        vListD vStrElem (JsonVal.lookup f "background_points") with
    | some a, some b, some c, some d => some ⟨a, b, c, d⟩
    | _, _, _, _ => none
  | _ => none

/-- Validate the `decision_makers` section (`profiles` is optional with
default `None`). -/
def vDecisionMakers (v : JsonVal) : Option DecisionMakers :=
  match v with
  | .obj f =>
    match (match JsonVal.lookup f "profiles" with
      | none => some none
      | some .null => some none
      | some (.arr l) => (mapOpt vDecisionMaker l).map some
      | _ => none),
      vBoundedNum 0 1 (JsonVal.lookup f "confidence") with
    | some p, some c => some ⟨p, c⟩
    | _, _ => none
  | _ => none

/-- Validate a `NewsItem` element. -/
def vNewsItem (v : JsonVal) : Option NewsItem :=
  match v with
  | .obj f =>
    match vStr (JsonVal.lookup f "headline"), vStr (JsonVal.lookup f "date"),
        vStr (JsonVal.lookup f "significance") with
    | some a, some b, some c => some ⟨a, b, c⟩
    | _, _, _ => none
  | _ => none

/-- Validate the `company_intelligence` section. -/
def vCompanyIntelligence (v : JsonVal) : Option CompanyIntelligence :=
  match v with
  | .obj f =>
    match vStr (JsonVal.lookup f "industry"), vStr (JsonVal.lookup f "company_size"),
        vListD vNewsItem (JsonVal.lookup f "recent_news"),
        vListD vStrElem (JsonVal.lookup f "strategic_initiatives"),
        vBoundedNum 0 1 (JsonVal.lookup f "confidence") with
    | some a, some b, some c, some d, some e => some ⟨a, b, c, d, e⟩
    | _, _, _, _, _ => none
  | _ => none

/-- `PrepReport.model_validate` over a modelled JSON value. -/
def prepReportValidate (v : JsonVal) : Option PrepReport :=
  match v with
  | .obj f =>
    match vExecutiveSummary ((JsonVal.lookup f "executive_summary").getD .null),
        vStrategicNarrative ((JsonVal.lookup f "strategic_narrative").getD .null),
        vTalkingPoints ((JsonVal.lookup f "talking_points").getD .null),
        vQuestionsToAsk ((JsonVal.lookup f "questions_to_ask").getD .null),
        vDecisionMakers ((JsonVal.lookup f "decision_makers").getD .null),
        vCompanyIntelligence ((JsonVal.lookup f "company_intelligence").getD .null),
        vListD vStrElem (JsonVal.lookup f "research_limitations"),
        vBoundedNum 0 1 (JsonVal.lookup f "overall_confidence"),
        vListD vStrElem (JsonVal.lookup f "sources") with
    | some s1, some s2, some s3, some s4, some s5, some s6, some rl, some oc, some src =>
      some ⟨s1, s2, s3, s4, s5, s6, rl, oc, src⟩
    | _, _, _, _, _, _, _, _, _ => none
  | _ => none

/-! ### Sales brief synthesizer
(`src/backend/src/agents/sales_synthesizer/agent.py`) -/

/-- `SalesBriefSynthesizer._create_error_report`: the fully populated
zero-confidence report returned on a parse or validation failure. -/
def create_error_report (meeting_objective error_message : String) : PrepReport :=
  { executive_summary := ⟨"Error generating report", "Unable to synthesize", meeting_objective, 0⟩
    strategic_narrative := ⟨"Unable to generate", [], [], 0⟩
    talking_points := ⟨"Error occurred during synthesis", [], "N/A", 0⟩
    questions_to_ask := ⟨[], [], [], [], 0⟩
    decision_makers := ⟨none, 0⟩
    company_intelligence := ⟨"Unknown", "Unknown", [], [], 0⟩
    research_limitations := ["Synthesis error: " ++ error_message]
    overall_confidence := 0
    sources := [] }

/-- The inline error report built in the synthesizer's outer `except` branch. -/
def fallbackErrorReport (meeting_objective error_message : String) : PrepReport :=
  { executive_summary := ⟨"Error generating report", "Unable to synthesize", meeting_objective, 0⟩
    strategic_narrative := ⟨"Unable to generate", [], [], 0⟩
    talking_points := ⟨"Error occurred", [], "N/A", 0⟩
    questions_to_ask := ⟨[], [], [], [], 0⟩
    decision_makers := ⟨none, 0⟩
    company_intelligence := ⟨"Unknown", "Unknown", [], [], 0⟩
    research_limitations := ["Error generating report: " ++ error_message]
    overall_confidence := 0
    sources := [] }

/-- `cleaned.split("\n", 1)[1]`: the part after the first newline, or an
`IndexError` (modelled by `none`) when there is no newline. -/
def splitFirstNL : List Char → Option (List Char)
  | [] => none
  | '\n' :: rest => some rest
  | _ :: rest => splitFirstNL rest

/-- `cleaned.rsplit("\x60\x60\x60", 1)[0]`: the part before the LAST
occurrence of the triple-backtick fence, or the whole list when absent. -/
def beforeLastFence : List Char → Option (List Char)
  | [] => none
  | c :: rest =>
    match beforeLastFence rest with
    | some out => some (c :: out)
    | none => if matchesAt "```".toList (c :: rest) then some [] else none

/-- The markdown-fence stripping step of the synthesizer; the `IndexError`
raised by `split("\n", 1)[1]` on a fenced string without a newline becomes
an `Except.error` that the outer `except` catches. -/
def stripFence (s : String) : Except String String :=
  let cleaned := pyStrip s
  if pyStartsWith cleaned "```" then
    match splitFirstNL cleaned.toList with
    | none => .error "list index out of range"
    | some afterNL =>
      .ok (pyStrip (String.mk ((beforeLastFence afterNL).getD afterNL)))
  else .ok cleaned

/-- The one-level `prep_report` wrapper unwrap:
`if isinstance(result_data, dict) and "prep_report" in result_data`. -/
def unwrapPrepReport (v : JsonVal) : JsonVal :=
  match v with
  | .obj f =>
    if JsonVal.hasKey f "prep_report" then JsonVal.getD f "prep_report" .null else .obj f
  | w => w

/-- The `try` body of `synthesize_sales_brief`: agent invocation (already
wrapped in the retry runner; its net outcome is `runResult`), payload
extraction, fence stripping, JSON parse, one-level `prep_report` unwrap,
schema validation.  `.error` marks a raised exception that reaches the
outer `except`; the parse and validation failures return the typed error
report directly. -/
def synthTry (runResult : Except String AgentResult) (meeting_objective : String) :
    Except String PrepReport :=
  match runResult with
  | .error e => .error e
  | .ok result =>
    match resultPayload result with
    | .str s =>
      match stripFence s with
      | .error e => .error e
      | .ok cleaned =>
        match jsonParse cleaned with
        | none => .ok (create_error_report meeting_objective "Expecting value")
        | some v =>
          match unwrapPrepReport v with
          | .obj f2 =>
            (match prepReportValidate (.obj f2) with
             | some r => .ok r
             | none => .ok (create_error_report meeting_objective
                 "validation error for PrepReport"))
          | _ => .error "Agent returned unexpected data type"
    | .obj f =>
      (match prepReportValidate (.obj f) with
       | some r => .ok r
       | none => .ok (create_error_report meeting_objective
           "validation error for PrepReport"))
    | _ => .error "Agent returned unexpected data type"

/-- `synthesize_sales_brief(research_data, user_profile, user_id,
meeting_objective)`.  The research data, profile and user id only shape the
prompt; the agent's behaviour is abstracted into `runResult`. -/
def synthesize_sales_brief (research_data user_profile : JsonVal)
    (user_id meeting_objective : String) (runResult : Except String AgentResult) :
    PrepReport :=
  match synthTry runResult meeting_objective with
  | .ok r => r
  | .error e => fallbackErrorReport meeting_objective e

/-! ### The router's synthesis phase (`src/backend/src/routers/prep.py`,
HEAD side of the merge conflict, `create_prep` step 3)

The router invokes the synthesizer with keyword arguments
`research_data`, `user_profile`, `meeting_objective` — but the method also
requires `user_id`, so Python raises a `TypeError` at call binding; the
router's `except` turns it into an HTTP 500. -/

/-- The required parameters of `SalesBriefSynthesizer.synthesize_sales_brief`. -/
def synthesizerParamNames : List String :=
  ["research_data", "user_profile", "user_id", "meeting_objective"]

/-- The keyword arguments `create_prep` actually supplies at the call site. -/
def createPrepSynthesisKwargs : List String :=
  ["research_data", "user_profile", "meeting_objective"]

/-- Python call binding: a call with these keyword arguments either enters
the body or raises a `TypeError` naming the missing required parameters. -/
def pyBindCall (required supplied : List String) : Except String Unit :=
  match required.filter (fun p => !(supplied.contains p)) with
  | [] => .ok ()
  | ms => .error ("synthesize_sales_brief() missing " ++ toString ms.length ++
      " required positional argument: " ++ String.intercalate " and " ms)

/-- An HTTP error response raised by the router. -/
structure HTTPError where
  status_code : ℕ
  detail : String

/-- Step 3 of `create_prep`: the `try` around the synthesizer call.  When
binding succeeds the synthesizer runs (that branch is unreachable with the
source's kwargs; the empty string stands for the `user_id` value the
binding would have needed); when it fails, the raised `TypeError` is caught
and re-raised as an HTTP 500 with a `Synthesis error:` detail. -/
def create_prep_synthesize_phase (research_data user_profile : JsonVal)
    (meeting_objective : String) (runResult : Except String AgentResult) :
    Except HTTPError PrepReport :=
  match pyBindCall synthesizerParamNames createPrepSynthesisKwargs with
  | .ok _ =>
    .ok (synthesize_sales_brief research_data user_profile "" meeting_objective runResult)
  | .error e => .error ⟨500, "Synthesis error: " ++ e⟩

/-! ### Research orchestrator
(`src/backend/src/agents/research_orchestrator/agent.py`) -/

/-- The placeholder package `research_company` substitutes when the agent's
text output cannot be parsed as JSON. -/
def placeholderResearch (company_name : String) : JsonVal :=
  .obj [("company_intelligence", .obj [("name", .str company_name),
          ("description", .str "Unable to parse research data")]),
        ("decision_makers", .arr []),
        ("research_limitations", .arr [.str "Research data format invalid"]),
        ("overall_confidence", .num (1 / 10)),
        ("sources_used", .arr [])]

/-- The dict `research_company` returns (the `sources_used` key is absent
in the failure branch, modelled with `Option`; `confidence_score` is
whatever dynamic value the code puts there). -/
structure ResearchResult where
  success : Bool
  company_name : String
  research_data : Option JsonVal
  sources_used : Option JsonVal
  confidence_score : JsonVal
  error : Option String

/-- `ResearchOrchestrator.research_company`: retry-wrapped agent run,
payload extraction, JSON-parse with placeholder fallback, then
`sources_used` / `overall_confidence` extraction with defaults. -/
def research_company (company_name : String)
    (invoke : ℕ → Except String AgentResult) : ResearchResult :=
  match (run_agent_with_retry invoke 3).result with
  | .error e =>
    { success := false
      company_name := company_name
      research_data := none
      sources_used := none
      confidence_score := .num 0
      error := some e }
  | .ok result =>
    let rd := match resultPayload result with
      | .str s => (jsonParse s).getD (placeholderResearch company_name)
      | v => v
    match rd with
    | .obj f =>
      { success := true
        company_name := company_name
        research_data := some (.obj f)
        sources_used := some (JsonVal.getD f "sources_used" (.arr []))
        confidence_score := JsonVal.getD f "overall_confidence" (.num (1 / 2))
        error := none }
    | v =>
      { success := true
        company_name := company_name
        research_data := some v
        sources_used := some (.arr [])
        confidence_score := .num (1 / 2)
        error := none }

/-! ## Helper lemmas -/

theorem find_map_replace {α : Type} (p : α → Bool) (row : α) (hrow : p row = true) :
    ∀ (db : List α), db.any p = true →
      (db.map (fun r => if p r then row else r)).find? p = some row := by
  intro db
  induction db with
  | nil => simp
  | cons a as ih =>
    intro h
    by_cases ha : p a = true
    · simp [List.find?, ha, hrow]
    · have has : as.any p = true := by
        rcases List.any_eq_true.mp h with ⟨x, hx, hpx⟩
        rcases List.mem_cons.mp hx with rfl | hx2
        · exact absurd hpx ha
        · exact List.any_eq_true.mpr ⟨x, hx2, hpx⟩
      simp [List.find?, ha, ih has]

theorem find_append_single {α : Type} (p : α → Bool) (row : α) (hrow : p row = true) :
    ∀ (db : List α), db.any p = false → (db ++ [row]).find? p = some row := by
  intro db
  induction db with
  | nil => simp [List.find?, hrow]
  | cons a as ih =>
    intro h
    have ⟨ha, has⟩ : p a = false ∧ as.any p = false := by simpa using h
    simpa [List.find?, ha] using ih has

theorem find_upsertRow (db : List CacheRow) (row : CacheRow) :
    (upsertRow db row).find?
      (fun r => r.company_name_normalized == row.company_name_normalized) = some row := by
  unfold upsertRow
  by_cases h : db.any (fun r => r.company_name_normalized == row.company_name_normalized)
  · rw [if_pos h]
    exact find_map_replace _ row (by simp) db h
  · rw [if_neg h]
    exact find_append_single _ row (by simp) db (by simpa using h)

theorem research_company_run_error (name e : String)
    (invoke : ℕ → Except String AgentResult)
    (h : (run_agent_with_retry invoke 3).result = Except.error e) :
    research_company name invoke =
      ⟨false, name, none, none, .num 0, some e⟩ := by
  unfold research_company
  rw [h]

theorem research_company_unparseable (name s : String) (h : jsonParse s = none) :
    research_company name (fun _ => Except.ok (AgentResult.withData (.str s))) =
      ⟨true, name, some (placeholderResearch name), some (.arr []), .num (1 / 10), none⟩ := by
  unfold research_company run_agent_with_retry runRetryAux
  simp only [resultPayload, h, Option.getD_none]
  rfl

theorem research_company_dict (name : String) (f : List (String × JsonVal)) :
    research_company name (fun _ => Except.ok (AgentResult.withData (.obj f))) =
      ⟨true, name, some (.obj f), some (JsonVal.getD f "sources_used" (.arr [])),
        JsonVal.getD f "overall_confidence" (.num (1 / 2)), none⟩ := by
  unfold research_company run_agent_with_retry runRetryAux
  rfl

theorem insertByScoreDesc_perm (x : SearchMatch) (l : List SearchMatch) :
    List.Perm (insertByScoreDesc x l) (x :: l) := by
  induction l with
  | nil => exact List.Perm.refl _
  | cons y ys ih =>
    unfold insertByScoreDesc
    by_cases h : x.relevance_score > y.relevance_score
    · rw [if_pos h]
    · rw [if_neg h]
      exact (ih.cons y).trans (List.Perm.swap x y ys)

theorem sortByScoreDesc_perm (l : List SearchMatch) :
    List.Perm (sortByScoreDesc l) l := by
  induction l with
  | nil => exact List.Perm.refl _
  | cons x xs ih =>
    exact (insertByScoreDesc_perm x (sortByScoreDesc xs)).trans (ih.cons x)

theorem pairwise_insertByScoreDesc (x : SearchMatch) (l : List SearchMatch)
    (h : l.Pairwise (fun a b => b.relevance_score ≤ a.relevance_score)) :
    (insertByScoreDesc x l).Pairwise (fun a b => b.relevance_score ≤ a.relevance_score) := by
  induction l with
  | nil => simp [insertByScoreDesc]
  | cons y ys ih =>
    rcases List.pairwise_cons.mp h with ⟨hy, hys⟩
    unfold insertByScoreDesc
    by_cases hx : x.relevance_score > y.relevance_score
    · rw [if_pos hx]
      refine List.pairwise_cons.mpr ⟨?_, h⟩
      intro z hz
      rcases List.mem_cons.mp hz with rfl | hz2
      · exact le_of_lt hx
      · exact le_trans (hy z hz2) (le_of_lt hx)
    · rw [if_neg hx]
      refine List.pairwise_cons.mpr ⟨?_, ih hys⟩
      intro z hz
      rcases List.mem_cons.mp ((insertByScoreDesc_perm x ys).mem_iff.mp hz) with rfl | hz4
      · exact not_lt.mp hx
      · exact hy z hz4

theorem pairwise_sortByScoreDesc (l : List SearchMatch) :
    (sortByScoreDesc l).Pairwise (fun a b => b.relevance_score ≤ a.relevance_score) := by
  induction l with
  | nil => simp [sortByScoreDesc]
  | cons x xs ih => exact pairwise_insertByScoreDesc x (sortByScoreDesc xs) ih

/-- The relevance score as the spec words it: "fraction of query terms
present in the concatenated project fields" (for comparison with the
embedded `calculate_relevance`). -/
def relevanceSpec (query : String) (p : Project) : ℚ :=
  let terms := pySplit (pyLower query)
  if terms = [] then 0
  else ((terms.filter (fun t => pyContains (projectText p) t)).length : ℚ) / terms.length

theorem calculate_relevance_eq_spec (query : String) (p : Project) :
    calculate_relevance query p = relevanceSpec query p := by
  unfold calculate_relevance relevanceSpec
  cases hterms : pySplit (pyLower query) with
  | nil => simp
  | cons t ts => simp [List.countP_eq_length_filter]

/-! ## Claim theorems -/

/-- C5: a cache entry written at time `t0` is returned with status
`"fresh"` by a read at any `t < t0 + 7` days, and with status `"stale"`
by a read at any `t ≥ t0 + 7` days (the boundary instant is stale); in
both cases the payload, confidence and sources are returned, not dropped
to `None`. -/
theorem C5_cache_freshness_boundary (row : CacheRow) (t0 t : ℤ)
    (ht0 : row.last_updated = some t0) :
    get_cached_company_data (Except.ok [row]) row.company_name_normalized t =
      some ⟨row.company_data, row.confidence_score, row.source_urls, some t0,
        if t < t0 + 7 * 86400 then "fresh" else "stale"⟩ := by
  unfold get_cached_company_data getCachedBody
  simp only [List.filter, beq_self_eq_true, List.head?, ht0, secondsPerDay, cache_ttl_days]
  by_cases h : t < t0 + 7 * 86400
  · rw [if_pos h, if_pos (by omega : (t - t0) / (86400 : ℤ) < (7 : ℕ))]
  · rw [if_neg h, if_neg (by omega : ¬ (t - t0) / (86400 : ℤ) < (7 : ℕ))]

/-- Witness for C5 at a concrete entry: a read one day after the write is
fresh, a read exactly seven days after the write is stale. -/
theorem C5_witness :
    get_cached_company_data (Except.ok [⟨"acme-corp", .null, 9 / 10, [], some 0⟩])
        "acme-corp" 86400 = some ⟨.null, 9 / 10, [], some 0, "fresh"⟩ ∧
    get_cached_company_data (Except.ok [⟨"acme-corp", .null, 9 / 10, [], some 0⟩])
        "acme-corp" 604800 = some ⟨.null, 9 / 10, [], some 0, "stale"⟩ := by
  constructor
  · have h := C5_cache_freshness_boundary ⟨"acme-corp", .null, 9 / 10, [], some 0⟩ 0 86400 rfl
    rw [if_pos (by norm_num)] at h
    exact h
  · have h := C5_cache_freshness_boundary ⟨"acme-corp", .null, 9 / 10, [], some 0⟩ 0 604800 rfl
    rw [if_neg (by norm_num)] at h
    exact h

/-- C10: a storage error during the cache read, or a stored `last_updated`
that `fromisoformat` cannot parse, makes `get_cached_company_data` return
`None` — indistinguishable from a miss — instead of propagating. -/
theorem C10_cache_read_errors_become_miss :
    (∀ (e key : String) (t : ℤ), get_cached_company_data (Except.error e) key t = none) ∧
    (∀ (rows : List CacheRow) (key : String) (t : ℤ) (row : CacheRow),
      (rows.filter (fun r => r.company_name_normalized == key)).head? = some row →
      row.last_updated = none →
      get_cached_company_data (Except.ok rows) key t = none) := by
  constructor
  · intro e key t
    rfl
  · intro rows key t row hrow hlu
    unfold get_cached_company_data getCachedBody
    simp only [hrow, hlu]

/-- Witness for C10: a raised storage error and an unparseable timestamp
both read back as a miss. -/
theorem C10_witness :
    get_cached_company_data (Except.error "connection reset") "k" 0 = none ∧
    get_cached_company_data (Except.ok [⟨"k", .null, 0, [], none⟩]) "k" 0 = none :=
  ⟨C10_cache_read_errors_become_miss.1 "connection reset" "k" 0,
   C10_cache_read_errors_become_miss.2 [⟨"k", .null, 0, [], none⟩] "k" 0
     ⟨"k", .null, 0, [], none⟩ rfl rfl⟩

/-- C4 counterexample: an invoke that always throws a message containing
both the rate-limit marker "429" and "quota" is NOT re-raised immediately:
the runner sleeps twice (amplified delays 2s and 4s) and makes all three
attempts, because the rate-limit branch is checked before the quota
branch. -/
theorem C4_counterexample :
    (run_agent_with_retry (fun _ => Except.error "429 quota exceeded") 3).attempts = 3 ∧
    (run_agent_with_retry (fun _ => Except.error "429 quota exceeded") 3).sleeps = [2, 4] := by
  constructor <;> rfl

/-- C4 (amended): an invoke whose first thrown message contains "quota" or
"billing" AND no rate-limit marker ("429" / "rate limit") is re-raised
after exactly one attempt with no sleep; the rate-limit classification
takes precedence over quota/billing, so a message containing both markers
is retried with amplified delay instead (see the counterexample). -/
theorem C4_quota_fast_fail_unless_rate_limited (invoke : ℕ → Except String AgentResult)
    (maxRetries : ℕ) (e : String) (hmax : 1 ≤ maxRetries)
    (h0 : invoke 0 = Except.error e)
    (hq : isQuotaMsg (pyLower e) = true)
    (hr : isRateLimitMsg (pyLower e) = false) :
    run_agent_with_retry invoke maxRetries = ⟨Except.error e, 1, []⟩ := by
  obtain ⟨k, rfl⟩ : ∃ k, maxRetries = k + 1 := ⟨maxRetries - 1, by omega⟩
  unfold run_agent_with_retry runRetryAux
  rw [h0]
  by_cases hi : isInvalidArgMsg (pyLower e) = true
  · simp [hi]
  · rcases Nat.eq_zero_or_pos k with rfl | hk
    · simp [hi]
    · have hk2 : 0 < k + 1 - 1 := by omega
      simp [hi, hk2, hr, hq]

/-- Witness for C4 (amended): a pure quota/billing message fails fast. -/
theorem C4_witness :
    run_agent_with_retry (fun _ => Except.error "Quota exceeded for billing account") 3 =
      ⟨Except.error "Quota exceeded for billing account", 1, []⟩ :=
  C4_quota_fast_fail_unless_rate_limited
    (fun _ => Except.error "Quota exceeded for billing account") 3
    "Quota exceeded for billing account" (by norm_num) rfl (by decide) (by decide)

/-- C2 (code bug evaluation): `create_prep` invokes the synthesizer without
the required `user_id` argument, so for EVERY request that reaches the
synthesis phase the call binding raises a `TypeError`, which the router's
`except` converts into an HTTP 500 — a synthesis-phase failure therefore
always surfaces as a request-level error, contradicting the claim. -/
theorem C2_synthesis_always_http500 (research_data user_profile : JsonVal)
    (meeting_objective : String) (runResult : Except String AgentResult) :
    create_prep_synthesize_phase research_data user_profile meeting_objective runResult =
      Except.error ⟨500, "Synthesis error: synthesize_sales_brief() missing 1 required positional argument: user_id"⟩ := rfl

/-- C3 counterexample: an agent result whose payload is unparseable text is
NOT returned as `success=false` with confidence 0.0 and an error; the code
substitutes a placeholder research package and returns `success=true` with
confidence 0.1 and no error. -/
theorem C3_counterexample :
    (research_company "Acme"
        (fun _ => Except.ok (AgentResult.withData (.str "not json")))).success = true ∧
    (research_company "Acme"
        (fun _ => Except.ok (AgentResult.withData (.str "not json")))).error = none ∧
    (research_company "Acme"
        (fun _ => Except.ok (AgentResult.withData (.str "not json")))).confidence_score =
      JsonVal.num (1 / 10) :=
  ⟨rfl, rfl, rfl⟩

/-- C3 (amended): only a RAISED agent invocation (retry exhaustion or
non-retryable error) makes `research_company` return `success=false` with
confidence 0.0 and a populated error; an agent result that is unparseable
text is instead replaced by a placeholder research package (confidence 0.1,
a noted limitation) and returned with `success=true` and no error. -/
theorem C3_research_failure_contract :
    (∀ (name e : String) (invoke : ℕ → Except String AgentResult),
      (run_agent_with_retry invoke 3).result = Except.error e →
      research_company name invoke = ⟨false, name, none, none, .num 0, some e⟩) ∧
    (∀ (name s : String), jsonParse s = none →
      research_company name (fun _ => Except.ok (AgentResult.withData (.str s))) =
        ⟨true, name, some (placeholderResearch name), some (.arr []), .num (1 / 10), none⟩) :=
  ⟨research_company_run_error, research_company_unparseable⟩

/-- Witness for C3 (amended): a run that exhausts retries on a generic
error yields the failure record; an agent returning the text `###` yields
the placeholder success record. -/
theorem C3_witness :
    research_company "Acme" (fun _ => Except.error "boom") =
      ⟨false, "Acme", none, none, .num 0, some "boom"⟩ ∧
    research_company "Acme" (fun _ => Except.ok (AgentResult.withData (.str "###"))) =
      ⟨true, "Acme", some (placeholderResearch "Acme"), some (.arr []), .num (1 / 10), none⟩ :=
  ⟨C3_research_failure_contract.1 "Acme" "boom" (fun _ => Except.error "boom") rfl,
   C3_research_failure_contract.2 "Acme" "###" rfl⟩

/-- C9 counterexample: when the agent's coerced output carries an
out-of-range `overall_confidence` (here 2), `research_company` passes it
through unclamped, so the returned `confidence_score` does NOT lie in
`[0, 1]`. -/
theorem C9_counterexample :
    (research_company "Acme" (fun _ => Except.ok (AgentResult.withData
        (.obj [("overall_confidence", .num 2)])))).confidence_score = JsonVal.num 2 ∧
    ¬ ((2 : ℚ) ≤ 1) :=
  ⟨rfl, by norm_num⟩

/-- C9 (amended): `confidence_score` is 0.0 when the invocation raises,
0.1 on the unparseable-text placeholder, 0.5 when the coerced dict lacks
`overall_confidence`, and otherwise exactly the dict's
`overall_confidence` value without clamping — in range only when the
agent's value is. -/
theorem C9_confidence_passthrough :
    (∀ (name : String) (f : List (String × JsonVal)) (v : JsonVal),
      JsonVal.lookup f "overall_confidence" = some v →
      (research_company name
          (fun _ => Except.ok (AgentResult.withData (.obj f)))).confidence_score = v) ∧
    (∀ (name : String) (f : List (String × JsonVal)),
      JsonVal.lookup f "overall_confidence" = none →
      (research_company name
          (fun _ => Except.ok (AgentResult.withData (.obj f)))).confidence_score =
        .num (1 / 2)) ∧
    (∀ (name e : String) (invoke : ℕ → Except String AgentResult),
      (run_agent_with_retry invoke 3).result = Except.error e →
      (research_company name invoke).confidence_score = .num 0) ∧
    (∀ (name s : String), jsonParse s = none →
      (research_company name
          (fun _ => Except.ok (AgentResult.withData (.str s)))).confidence_score =
        .num (1 / 10)) := by
  refine ⟨?_, ?_, ?_, ?_⟩
  · intro name f v h
    rw [research_company_dict name f]
    simp [JsonVal.getD, h]
  · intro name f h
    rw [research_company_dict name f]
    simp [JsonVal.getD, h]
  · intro name e invoke h
    rw [research_company_run_error name e invoke h]
  · intro name s h
    rw [research_company_unparseable name s h]

/-- Witness for C9 (amended): the four branches at concrete inputs. -/
theorem C9_witness :
    (research_company "A" (fun _ => Except.ok (AgentResult.withData
        (.obj [("overall_confidence", .num (7 / 10))])))).confidence_score =
      JsonVal.num (7 / 10) ∧
    (research_company "A" (fun _ => Except.ok (AgentResult.withData
        (.obj [])))).confidence_score = JsonVal.num (1 / 2) ∧
    (research_company "A" (fun _ => Except.error "boom")).confidence_score = JsonVal.num 0 ∧
    (research_company "A" (fun _ => Except.ok (AgentResult.withData
        (.str "###")))).confidence_score = JsonVal.num (1 / 10) :=
  ⟨C9_confidence_passthrough.1 "A" [("overall_confidence", .num (7 / 10))] _ rfl,
   C9_confidence_passthrough.2.1 "A" [] rfl,
   C9_confidence_passthrough.2.2.1 "A" "boom" (fun _ => Except.error "boom") rfl,
   C9_confidence_passthrough.2.2.2 "A" "###" rfl⟩

/-- C6: the cache write clamps the confidence with
`max(0.0, min(1.0, c))` before the upsert (so the persisted row for the
key carries the clamped value, in `[0, 1]`, with `1.7 ↦ 1.0` and
`-0.3 ↦ 0.0`), and `save_meeting_prep` likewise clamps
`overall_confidence` before insertion. -/
theorem C6_confidence_clamped_before_persist :
    (∀ (db : List CacheRow) (key : String) (data : JsonVal) (conf : ℚ)
        (sources : List String) (now : ℤ),
      ∃ row, ((cache_company_data db key data conf sources now true).1.find?
            (fun r => r.company_name_normalized == key) = some row) ∧
        row.confidence_score = max 0 (min 1 conf) ∧
        0 ≤ row.confidence_score ∧ row.confidence_score ≤ 1) ∧
    (cacheRowFor "acme" .null (17 / 10) [] 0).confidence_score = 1 ∧
    (cacheRowFor "acme" .null (-(3 / 10)) [] 0).confidence_score = 0 ∧
    (∀ (u cn ncn mo : String) (md cpn clu : Option String) (pd : JsonVal) (oc : ℚ)
        (ch : Bool),
      0 ≤ (save_meeting_prep_record u cn ncn mo md cpn clu pd oc ch).overall_confidence ∧
      (save_meeting_prep_record u cn ncn mo md cpn clu pd oc ch).overall_confidence ≤ 1 ∧
      (save_meeting_prep_record u cn ncn mo md cpn clu pd (17 / 10) ch).overall_confidence = 1 ∧
      (save_meeting_prep_record u cn ncn mo md cpn clu pd (-(3 / 10)) ch).overall_confidence = 0) := by
  refine ⟨?_, by norm_num [cacheRowFor], by norm_num [cacheRowFor], ?_⟩
  · intro db key data conf sources now
    refine ⟨cacheRowFor key data conf sources now, ?_, rfl, le_max_left 0 _, ?_⟩
    · have h := find_upsertRow db (cacheRowFor key data conf sources now)
      simpa [cache_company_data, cacheRowFor] using h
    · exact max_le (by norm_num) (min_le_left 1 conf)
  · intro u cn ncn mo md cpn clu pd oc ch
    refine ⟨le_max_left 0 _, max_le (by norm_num) (min_le_left 1 oc), ?_, ?_⟩ <;>
      norm_num [save_meeting_prep_record]

/-- C8 counterexample: with a query of 10 terms of which exactly 3 occur in
the project text, the score is exactly 0.3 and the project is EXCLUDED —
the floor comparison is strict (`> 0.3`), contradicting the claim that a
project scoring exactly 0.3 is included. -/
theorem C8_counterexample :
    calculate_relevance "alpha beta gamma d f j k q w x"
        ⟨"alpha beta gamma", "", "", ""⟩ = 3 / 10 ∧
    search_portfolio_projects [⟨"alpha beta gamma", "", "", ""⟩]
        "alpha beta gamma d f j k q w x" 5 = [] := by
  have h1 : calculate_relevance "alpha beta gamma d f j k q w x"
      ⟨"alpha beta gamma", "", "", ""⟩ = 3 / 10 := by
    have hc : List.countP
        (fun t => pyContains (projectText ⟨"alpha beta gamma", "", "", ""⟩) t)
        (pySplit (pyLower "alpha beta gamma d f j k q w x")) = 3 := rfl
    have hl : (pySplit (pyLower "alpha beta gamma d f j k q w x")).length = 10 := rfl
    have hne : (pySplit (pyLower "alpha beta gamma d f j k q w x")).isEmpty = false := rfl
    simp only [calculate_relevance, hc, hl, hne]
    norm_num
  refine ⟨h1, ?_⟩
  have h2 : search_portfolio_projects [⟨"alpha beta gamma", "", "", ""⟩]
      "alpha beta gamma d f j k q w x" 5 =
      (sortByScoreDesc ([SearchMatch.mk 0 ⟨"alpha beta gamma", "", "", ""⟩
        (calculate_relevance "alpha beta gamma d f j k q w x"
          ⟨"alpha beta gamma", "", "", ""⟩)].filter
        (fun m => m.relevance_score > 3 / 10))).take 5 := rfl
  rw [h2]
  simp [List.filter, h1, sortByScoreDesc]

/-- C8 (amended): portfolio search scores each project as the fraction of
query terms occurring in the concatenated project fields (0 for an empty
query), keeps only projects scoring STRICTLY above the 0.3 floor (a score
of exactly 0.3 is excluded), sorts the kept matches descending by score,
and returns at most `limit` of them; when `limit` covers the portfolio,
every project scoring above the floor appears. -/
theorem C8_portfolio_search_contract (portfolio : List Project) (q : String) (limit : ℕ) :
    (∀ m ∈ search_portfolio_projects portfolio q limit,
      m.relevance_score = calculate_relevance q m.project ∧
      m.relevance_score > 3 / 10 ∧ m.project ∈ portfolio) ∧
    (search_portfolio_projects portfolio q limit).Pairwise
      (fun a b => b.relevance_score ≤ a.relevance_score) ∧
    (search_portfolio_projects portfolio q limit).length ≤ limit ∧
    (∀ p : Project, calculate_relevance "" p = 0) ∧
    (∀ (q' : String) (p : Project), calculate_relevance q' p = relevanceSpec q' p) ∧
    (portfolio.length ≤ limit →
      ∀ (i : ℕ) (hi : i < portfolio.length), calculate_relevance q portfolio[i] > 3 / 10 →
        ∃ m ∈ search_portfolio_projects portfolio q limit,
          m.index = i ∧ m.project = portfolio[i]) := by
  have hsearch : search_portfolio_projects portfolio q limit =
      (sortByScoreDesc ((portfolio.enum.map
          (fun ip => SearchMatch.mk ip.1 ip.2 (calculate_relevance q ip.2))).filter
        (fun m => m.relevance_score > 3 / 10))).take limit := rfl
  refine ⟨?_, ?_, ?_, fun p => rfl, calculate_relevance_eq_spec, ?_⟩
  · intro m hm
    rw [hsearch] at hm
    have hm2 := List.mem_of_mem_take hm
    have hm3 := (sortByScoreDesc_perm _).mem_iff.mp hm2
    rcases List.mem_filter.mp hm3 with ⟨hmem, hpred⟩
    rcases List.mem_map.mp hmem with ⟨ip, hip, rfl⟩
    refine ⟨rfl, by simpa using hpred, ?_⟩
    have h := List.mem_enum_iff_getElem?.mp hip
    exact List.getElem?_mem h
  · rw [hsearch]
    exact (pairwise_sortByScoreDesc _).sublist (List.take_sublist _ _)
  · rw [hsearch]
    exact List.length_take_le _ _
  · intro hlim i hi hscore
    have hlen : (sortByScoreDesc ((portfolio.enum.map
        (fun ip => SearchMatch.mk ip.1 ip.2 (calculate_relevance q ip.2))).filter
        (fun m => m.relevance_score > 3 / 10))).length ≤ limit := by
      have h1 := (sortByScoreDesc_perm ((portfolio.enum.map
          (fun ip => SearchMatch.mk ip.1 ip.2 (calculate_relevance q ip.2))).filter
          (fun m => m.relevance_score > 3 / 10))).length_eq
      have h2 := List.length_filter_le (fun m => decide (m.relevance_score > 3 / 10))
        (portfolio.enum.map (fun ip => SearchMatch.mk ip.1 ip.2 (calculate_relevance q ip.2)))
      simp only [List.length_map, List.enum_length] at h2
      omega
    refine ⟨SearchMatch.mk i portfolio[i] (calculate_relevance q portfolio[i]), ?_, rfl, rfl⟩
    rw [hsearch, List.take_of_length_le hlen]
    apply (sortByScoreDesc_perm _).mem_iff.mpr
    refine List.mem_filter.mpr ⟨List.mem_map.mpr ⟨(i, portfolio[i]), ?_, rfl⟩, ?_⟩
    · exact List.mem_enum_iff_getElem?.mpr (List.getElem?_eq_getElem hi)
    · simpa using hscore

/-- Witness for C8 (amended): a one-project portfolio with a fully matching
query; the contract conjuncts applied at these concrete inputs. -/
theorem C8_witness :
    (∀ m ∈ search_portfolio_projects [⟨"cloud migration", "", "", ""⟩] "cloud migration" 5,
      m.relevance_score = calculate_relevance "cloud migration" m.project ∧
      m.relevance_score > 3 / 10 ∧ m.project ∈ [(⟨"cloud migration", "", "", ""⟩ : Project)]) ∧
    (∃ m ∈ search_portfolio_projects [⟨"cloud migration", "", "", ""⟩] "cloud migration" 5,
      m.index = 0 ∧ m.project = (⟨"cloud migration", "", "", ""⟩ : Project)) :=
  ⟨(C8_portfolio_search_contract [⟨"cloud migration", "", "", ""⟩] "cloud migration" 5).1,
   (C8_portfolio_search_contract [⟨"cloud migration", "", "", ""⟩] "cloud migration" 5).2.2.2.2.2
     (by norm_num) 0 (by norm_num)
     (by
       have hc : List.countP
           (fun t => pyContains (projectText ⟨"cloud migration", "", "", ""⟩) t)
           (pySplit (pyLower "cloud migration")) = 2 := rfl
       have hl : (pySplit (pyLower "cloud migration")).length = 2 := rfl
       have hne : (pySplit (pyLower "cloud migration")).isEmpty = false := rfl
       simp only [List.getElem_cons_zero, calculate_relevance, hl, hne]
       rw [hc]
       norm_num)⟩

/-! ## Normalization: shape invariants for idempotence (C7) -/

/-- The head of the list, when present, is in `[a-z0-9]`. -/
def headAlnum : List Char → Bool
  | [] => true
  | c :: _ => isLowerAlnum c

/-- The head of the list, when present, is not a hyphen. -/
def headNotHyphen : List Char → Bool
  | [] => true
  | c :: _ => !(c == '-')

/-- The last element, when present, is not a hyphen. -/
def tailNotHyphen : List Char → Bool
  | [] => true
  | c :: rest => if rest.isEmpty then !(c == '-') else tailNotHyphen rest

/-- Every character is in `[a-z0-9]`, or is a hyphen followed by an
alphanumeric character (or at the end). -/
def goodRun : List Char → Bool
  | [] => true
  | c :: rest =>
    if isLowerAlnum c then goodRun rest
    else c == '-' && headAlnum rest && goodRun rest

theorem pyCharLower_fix (c : Char) (h : isLowerAlnum c = true ∨ c = '-') :
    pyCharLower c = c := by
  rcases h with h | rfl
  · unfold pyCharLower
    simp only [isLowerAlnum, Bool.or_eq_true, Bool.and_eq_true, decide_eq_true_eq] at h
    have hcond : ¬ ((decide (65 ≤ c.toNat) && decide (c.toNat ≤ 90)) = true) := by
      simp only [Bool.and_eq_true, decide_eq_true_eq]
      omega
    rw [if_neg hcond]
  · rfl

theorem goodRun_chars (l : List Char) (h : goodRun l = true) :
    ∀ c ∈ l, isLowerAlnum c = true ∨ c = '-' := by
  induction l with
  | nil => intro c hc; simp at hc
  | cons d rest ih =>
    intro c hc
    unfold goodRun at h
    by_cases hd : isLowerAlnum d = true
    · rw [if_pos hd] at h
      rcases List.mem_cons.mp hc with rfl | hc2
      · exact Or.inl hd
      · exact ih h c hc2
    · rw [if_neg hd] at h
      simp only [Bool.and_eq_true, beq_iff_eq] at h
      obtain ⟨⟨hdd, _⟩, hgood⟩ := h
      rcases List.mem_cons.mp hc with rfl | hc2
      · exact Or.inr hdd
      · exact ih hgood c hc2

theorem subRuns_true_head (l : List Char) : headAlnum (subRuns l true) = true := by
  induction l with
  | nil => rfl
  | cons d rest ih =>
    unfold subRuns
    by_cases hd : isLowerAlnum d = true
    · simp [hd, headAlnum]
    · simp [hd, ih]

theorem goodRun_subRuns (l : List Char) (b : Bool) : goodRun (subRuns l b) = true := by
  induction l generalizing b with
  | nil => rfl
  | cons d rest ih =>
    unfold subRuns
    by_cases hd : isLowerAlnum d = true
    · rw [if_pos hd]
      unfold goodRun
      rw [if_pos hd]
      exact ih false
    · rw [if_neg hd]
      cases b with
      | true => simpa using ih true
      | false =>
        simp only [Bool.false_eq_true, if_false]
        unfold goodRun
        have hmh : isLowerAlnum '-' = false := rfl
        simp [hmh, subRuns_true_head rest, ih true]

theorem subRuns_flag_of_headAlnum (l : List Char) (h : headAlnum l = true) :
    subRuns l true = subRuns l false := by
  cases l with
  | nil => rfl
  | cons d rest =>
    have hd : isLowerAlnum d = true := h
    unfold subRuns
    rw [if_pos hd, if_pos hd]

theorem subRuns_fix (l : List Char) (h : goodRun l = true) : subRuns l false = l := by
  induction l with
  | nil => rfl
  | cons d rest ih =>
    unfold goodRun at h
    by_cases hd : isLowerAlnum d = true
    · rw [if_pos hd] at h
      unfold subRuns
      rw [if_pos hd, ih h]
    · rw [if_neg hd] at h
      simp only [Bool.and_eq_true, beq_iff_eq] at h
      obtain ⟨⟨hdd, hhead⟩, hgood⟩ := h
      subst hdd
      unfold subRuns
      rw [if_neg hd]
      simp only [Bool.false_eq_true, if_false]
      rw [subRuns_flag_of_headAlnum rest hhead, ih hgood]

theorem goodRun_dropLead (l : List Char) (h : goodRun l = true) :
    goodRun (dropLeadHyphens l) = true := by
  induction l with
  | nil => rfl
  | cons d rest ih =>
    by_cases hd : (d == '-') = true
    · have hstep : dropLeadHyphens (d :: rest) = dropLeadHyphens rest := by
        simp [dropLeadHyphens, List.dropWhile, hd]
      rw [hstep]
      apply ih
      have hd2 : isLowerAlnum d = false := by
        rw [beq_iff_eq.mp hd]; rfl
      unfold goodRun at h
      rw [if_neg (by simp [hd2])] at h
      simp only [Bool.and_eq_true] at h
      exact h.2
    · have hstep : dropLeadHyphens (d :: rest) = d :: rest := by
        simp [dropLeadHyphens, List.dropWhile, hd]
      rw [hstep]
      exact h

theorem dropLead_headNotHyphen (l : List Char) :
    headNotHyphen (dropLeadHyphens l) = true := by
  induction l with
  | nil => rfl
  | cons d rest ih =>
    by_cases hd : (d == '-') = true
    · have hstep : dropLeadHyphens (d :: rest) = dropLeadHyphens rest := by
        simp [dropLeadHyphens, List.dropWhile, hd]
      rw [hstep]
      exact ih
    · have hstep : dropLeadHyphens (d :: rest) = d :: rest := by
        simp [dropLeadHyphens, List.dropWhile, hd]
      rw [hstep]
      simpa [headNotHyphen] using hd

theorem dropLead_fix (l : List Char) (h : headNotHyphen l = true) :
    dropLeadHyphens l = l := by
  cases l with
  | nil => rfl
  | cons d rest =>
    have hd : (d == '-') = false := by
      simpa [headNotHyphen] using h
    simp [dropLeadHyphens, List.dropWhile, hd]

theorem dropTail_head (l : List Char) (o : Char) (os : List Char)
    (h : dropTailHyphens l = o :: os) : ∃ rest2, l = o :: rest2 := by
  cases l with
  | nil => simp [dropTailHyphens] at h
  | cons c r =>
    unfold dropTailHyphens at h
    cases hout : dropTailHyphens r with
    | nil =>
      rw [hout] at h
      by_cases hc : (c == '-') = true
      · simp [hc] at h
      · simp only [hc, Bool.false_eq_true, if_false] at h
        exact ⟨r, by rw [(List.cons.injEq _ _ _ _).mp h |>.1]⟩
    | cons p ps =>
      rw [hout] at h
      exact ⟨r, by rw [(List.cons.injEq _ _ _ _).mp h |>.1]⟩

theorem tailNotHyphen_dropTail (l : List Char) :
    tailNotHyphen (dropTailHyphens l) = true := by
  induction l with
  | nil => rfl
  | cons c rest ih =>
    unfold dropTailHyphens
    cases hout : dropTailHyphens rest with
    | nil =>
      by_cases hc : (c == '-') = true
      · simp [hc, tailNotHyphen]
      · simp [hc, tailNotHyphen]
    | cons o os =>
      rw [hout] at ih
      simpa [tailNotHyphen] using ih

theorem goodRun_dropTail (l : List Char) (h : goodRun l = true) :
    goodRun (dropTailHyphens l) = true := by
  induction l with
  | nil => rfl
  | cons c rest ih =>
    unfold dropTailHyphens
    cases hout : dropTailHyphens rest with
    | nil =>
      by_cases hc : (c == '-') = true
      · simp [hc, goodRun]
      · simp only [hc, Bool.false_eq_true, if_false]
        unfold goodRun at h ⊢
        by_cases hal : isLowerAlnum c = true
        · rw [if_pos hal]
          rfl
        · rw [if_neg hal] at h
          simp only [Bool.and_eq_true] at h
          rw [h.1.1] at hc
          simp at hc
    | cons o os =>
      unfold goodRun at h ⊢
      by_cases hal : isLowerAlnum c = true
      · rw [if_pos hal] at h ⊢
        rw [← hout]
        exact ih h
      · rw [if_neg hal] at h ⊢
        simp only [Bool.and_eq_true, beq_iff_eq] at h
        obtain ⟨⟨hdd, hhead⟩, hgood⟩ := h
        obtain ⟨rest2, hrest⟩ := dropTail_head rest o os hout
        have hoal : isLowerAlnum o = true := by
          rw [hrest] at hhead
          exact hhead
        simp only [Bool.and_eq_true, beq_iff_eq]
        refine ⟨⟨hdd, ?_⟩, ?_⟩
        · exact hoal
        · rw [← hout]
          exact ih hgood

theorem headNotHyphen_dropTail (l : List Char) (h : headNotHyphen l = true) :
    headNotHyphen (dropTailHyphens l) = true := by
  cases hout : dropTailHyphens l with
  | nil => rfl
  | cons o os =>
    obtain ⟨rest2, hrest⟩ := dropTail_head l o os hout
    rw [hrest] at h
    exact h

theorem dropTail_fix (l : List Char) (h : tailNotHyphen l = true) :
    dropTailHyphens l = l := by
  induction l with
  | nil => rfl
  | cons c rest ih =>
    unfold dropTailHyphens
    cases rest with
    | nil =>
      have hc : (c == '-') = false := by
        simpa [tailNotHyphen] using h
      simp [dropTailHyphens, hc]
    | cons d ds =>
      have h2 : tailNotHyphen (d :: ds) = true := by
        simpa [tailNotHyphen] using h
      rw [ih h2]

theorem map_lower_fix (l : List Char) (h : ∀ c ∈ l, pyCharLower c = c) :
    l.map pyCharLower = l := by
  induction l with
  | nil => rfl
  | cons c rest ih =>
    simp only [List.map_cons, h c (List.mem_cons_self c rest),
      ih (fun d hd => h d (List.mem_cons_of_mem c hd))]

theorem normalizeCore_good (l : List Char) :
    goodRun (normalizeCore l) = true ∧ headNotHyphen (normalizeCore l) = true ∧
      tailNotHyphen (normalizeCore l) = true := by
  refine ⟨?_, ?_, ?_⟩
  · exact goodRun_dropTail _ (goodRun_dropLead _ (goodRun_subRuns _ false))
  · exact headNotHyphen_dropTail _ (dropLead_headNotHyphen _)
  · exact tailNotHyphen_dropTail _

theorem normalizeCore_fix (l : List Char) (hg : goodRun l = true)
    (hh : headNotHyphen l = true) (ht : tailNotHyphen l = true) :
    normalizeCore l = l := by
  unfold normalizeCore
  rw [map_lower_fix l (fun c hc => pyCharLower_fix c (goodRun_chars l hg c hc)),
    subRuns_fix l hg, dropLead_fix l hh, dropTail_fix l ht]

/-- C7: company-name normalization is idempotent, and the stated examples
hold: `normalize("Acme Corp") = "acme-corp"` and
`normalize("  @@@  ") = ""`. -/
theorem C7_normalize_idempotent :
    (∀ x : String,
      normalize_company_name (normalize_company_name x) = normalize_company_name x) ∧
    normalize_company_name "Acme Corp" = "acme-corp" ∧
    normalize_company_name "  @@@  " = "" := by
  refine ⟨?_, rfl, rfl⟩
  intro x
  show String.mk (normalizeCore (normalizeCore x.toList)) = String.mk (normalizeCore x.toList)
  obtain ⟨hg, hh, ht⟩ := normalizeCore_good x.toList
  rw [normalizeCore_fix _ hg hh ht]

/-! ## Synthesizer totality (C1) -/

/-- Every confidence field of a report lies in `[0, 1]` (the six section
confidences, the overall confidence and the relevance scores). -/
def confInRange (r : PrepReport) : Prop :=
  (0 ≤ r.executive_summary.confidence ∧ r.executive_summary.confidence ≤ 1) ∧
  (0 ≤ r.strategic_narrative.confidence ∧ r.strategic_narrative.confidence ≤ 1) ∧
  (0 ≤ r.talking_points.confidence ∧ r.talking_points.confidence ≤ 1) ∧
  (0 ≤ r.questions_to_ask.confidence ∧ r.questions_to_ask.confidence ≤ 1) ∧
  (0 ≤ r.decision_makers.confidence ∧ r.decision_makers.confidence ≤ 1) ∧
  (0 ≤ r.company_intelligence.confidence ∧ r.company_intelligence.confidence ≤ 1) ∧
  (0 ≤ r.overall_confidence ∧ r.overall_confidence ≤ 1) ∧
  (∀ m ∈ r.strategic_narrative.proof_of_achievement,
    0 ≤ m.relevance_score ∧ m.relevance_score ≤ 1)

/-- The degraded error-report shape: every section present with every list
empty, every confidence 0, and a nonempty `research_limitations`. -/
def degradedShape (r : PrepReport) : Prop :=
  r.strategic_narrative.proof_of_achievement = [] ∧
  r.strategic_narrative.pain_points = [] ∧
  r.talking_points.key_points = [] ∧
  r.questions_to_ask.strategic = [] ∧
  r.questions_to_ask.technical = [] ∧
  r.questions_to_ask.business_impact = [] ∧
  r.questions_to_ask.qualification = [] ∧
  r.decision_makers.profiles = none ∧
  r.company_intelligence.recent_news = [] ∧
  r.company_intelligence.strategic_initiatives = [] ∧
  r.sources = [] ∧
  r.executive_summary.confidence = 0 ∧
  r.strategic_narrative.confidence = 0 ∧
  r.talking_points.confidence = 0 ∧
  r.questions_to_ask.confidence = 0 ∧
  r.decision_makers.confidence = 0 ∧
  r.company_intelligence.confidence = 0 ∧
  r.overall_confidence = 0 ∧
  r.research_limitations ≠ []

theorem create_error_report_shape (mo msg : String) :
    degradedShape (create_error_report mo msg) ∧ confInRange (create_error_report mo msg) := by
  unfold degradedShape confInRange create_error_report
  norm_num

theorem fallbackErrorReport_shape (mo msg : String) :
    degradedShape (fallbackErrorReport mo msg) ∧ confInRange (fallbackErrorReport mo msg) := by
  unfold degradedShape confInRange fallbackErrorReport
  norm_num

theorem vBoundedNum_range {lo hi : ℚ} {v : Option JsonVal} {q : ℚ}
    (h : vBoundedNum lo hi v = some q) : lo ≤ q ∧ q ≤ hi := by
  unfold vBoundedNum at h
  split at h
  · split_ifs at h with hcond
    · cases h
      exact hcond
  · exact absurd h (by simp)

theorem mapOpt_mem {α β : Type} (f : α → Option β) :
    ∀ (l : List α) (out : List β), mapOpt f l = some out →
      ∀ b ∈ out, ∃ a ∈ l, f a = some b := by
  intro l
  induction l with
  | nil =>
    intro out h b hb
    unfold mapOpt at h
    cases h
    simp at hb
  | cons a as ih =>
    intro out h b hb
    unfold mapOpt at h
    cases hfa : f a with
    | none => rw [hfa] at h; simp at h
    | some fb =>
      rw [hfa] at h
      cases hrest : mapOpt f as with
      | none => rw [hrest] at h; simp at h
      | some bs =>
        rw [hrest] at h
        simp only [Option.bind, Option.map, Option.some.injEq] at h
        subst h
        rcases List.mem_cons.mp hb with rfl | hb2
        · exact ⟨a, List.mem_cons_self a as, hfa⟩
        · obtain ⟨a2, ha2, hfa2⟩ := ih bs hrest b hb2
          exact ⟨a2, List.mem_cons_of_mem a ha2, hfa2⟩

theorem vPortfolioMatch_range {a : JsonVal} {m : PortfolioMatch}
    (h : vPortfolioMatch a = some m) :
    0 ≤ m.relevance_score ∧ m.relevance_score ≤ 1 := by
  unfold vPortfolioMatch at h
  split at h
  · split at h
    · rename_i heq1 heq2 heq3
      cases h
      exact vBoundedNum_range heq3
    · simp at h
  · simp at h

theorem vListD_portfolio_range {v : Option JsonVal} {l : List PortfolioMatch}
    (h : vListD vPortfolioMatch v = some l) :
    ∀ m ∈ l, 0 ≤ m.relevance_score ∧ m.relevance_score ≤ 1 := by
  intro m hm
  unfold vListD at h
  split at h
  · cases h; simp at hm
  · obtain ⟨a, _, hfa⟩ := mapOpt_mem vPortfolioMatch _ l h m hm
    exact vPortfolioMatch_range hfa
  · exact absurd h (by simp)

theorem vExecutiveSummary_range {v : JsonVal} {es : ExecutiveSummary}
    (h : vExecutiveSummary v = some es) : 0 ≤ es.confidence ∧ es.confidence ≤ 1 := by
  unfold vExecutiveSummary at h
  split at h
  · split at h
    · rename_i heq1 heq2 heq3 heq4
      cases h
      exact vBoundedNum_range heq4
    · simp at h
  · simp at h

theorem vStrategicNarrative_range {v : JsonVal} {sn : StrategicNarrative}
    (h : vStrategicNarrative v = some sn) :
    (0 ≤ sn.confidence ∧ sn.confidence ≤ 1) ∧
      ∀ m ∈ sn.proof_of_achievement, 0 ≤ m.relevance_score ∧ m.relevance_score ≤ 1 := by
  unfold vStrategicNarrative at h
  split at h
  · split at h
    · rename_i heq1 heq2 heq3 heq4
      cases h
      exact ⟨vBoundedNum_range heq4, vListD_portfolio_range heq2⟩
    · simp at h
  · simp at h

theorem vTalkingPoints_range {v : JsonVal} {tp : TalkingPoints}
    (h : vTalkingPoints v = some tp) : 0 ≤ tp.confidence ∧ tp.confidence ≤ 1 := by
  unfold vTalkingPoints at h
  split at h
  · split at h
    · rename_i heq1 heq2 heq3 heq4
      cases h
      exact vBoundedNum_range heq4
    · simp at h
  · simp at h

theorem vQuestionsToAsk_range {v : JsonVal} {qa : QuestionsToAsk}
    (h : vQuestionsToAsk v = some qa) : 0 ≤ qa.confidence ∧ qa.confidence ≤ 1 := by
  unfold vQuestionsToAsk at h
  split at h
  · split at h
    · rename_i heq1 heq2 heq3 heq4 heq5
      cases h
      exact vBoundedNum_range heq5
    · simp at h
  · simp at h

theorem vDecisionMakers_range {v : JsonVal} {dm : DecisionMakers}
    (h : vDecisionMakers v = some dm) : 0 ≤ dm.confidence ∧ dm.confidence ≤ 1 := by
  unfold vDecisionMakers at h
  split at h
  · rename_i f
    generalize (match JsonVal.lookup f "profiles" with
      | none => some none
      | some JsonVal.null => some none
      | some (JsonVal.arr l) => (mapOpt vDecisionMaker l).map some
      | _ => none : Option (Option (List DecisionMaker))) = po at h
    split at h
    · rename_i heq1 heq2
      cases h
      exact vBoundedNum_range heq2
    · simp at h
  · simp at h

theorem vCompanyIntelligence_range {v : JsonVal} {ci : CompanyIntelligence}
    (h : vCompanyIntelligence v = some ci) : 0 ≤ ci.confidence ∧ ci.confidence ≤ 1 := by
  unfold vCompanyIntelligence at h
  split at h
  · split at h
    · rename_i heq1 heq2 heq3 heq4 heq5
      cases h
      exact vBoundedNum_range heq5
    · simp at h
  · simp at h

theorem prepReportValidate_range {v : JsonVal} {r : PrepReport}
    (h : prepReportValidate v = some r) : confInRange r := by
  unfold prepReportValidate at h
  split at h
  · split at h
    · rename_i heq1 heq2 heq3 heq4 heq5 heq6 heq7 heq8 heq9
      cases h
      obtain ⟨hsn, hpm⟩ := vStrategicNarrative_range heq2
      exact ⟨vExecutiveSummary_range heq1, hsn, vTalkingPoints_range heq3,
        vQuestionsToAsk_range heq4, vDecisionMakers_range heq5,
        vCompanyIntelligence_range heq6, vBoundedNum_range heq8, hpm⟩
    · simp at h
  · simp at h

theorem synthTry_cases (runResult : Except String AgentResult) (mo : String) (r : PrepReport)
    (h : synthTry runResult mo = Except.ok r) :
    (∃ v, prepReportValidate v = some r) ∨ ∃ msg, r = create_error_report mo msg := by
  unfold synthTry at h
  split at h
  · simp at h
  · split at h
    · -- payload is a string
      split at h
      · simp at h
      · split at h
        · cases h
          exact Or.inr ⟨"Expecting value", rfl⟩
        · split at h
          · split at h
            · rename_i heq
              cases h
              exact Or.inl ⟨_, heq⟩
            · cases h
              exact Or.inr ⟨"validation error for PrepReport", rfl⟩
          · simp at h
    · -- payload is a dict
      split at h
      · rename_i heq
        cases h
        exact Or.inl ⟨_, heq⟩
      · cases h
        exact Or.inr ⟨"validation error for PrepReport", rfl⟩
    · simp at h

/-- C1: for every research_data / user_profile / user_id /
meeting_objective and every agent outcome — a raised invocation,
unparseable text, or a wrongly-shaped object — `synthesize_sales_brief`
returns a PrepReport whose every confidence field lies in `[0, 1]`; the
report either comes from a successful schema validation, or it is the
degraded error report: every section present, every list empty, every
confidence 0.0, and `research_limitations` nonempty with the failure
description. -/
theorem C1_synthesizer_total (research_data user_profile : JsonVal)
    (user_id mo : String) (runResult : Except String AgentResult) :
    confInRange (synthesize_sales_brief research_data user_profile user_id mo runResult) ∧
    ((∃ v, prepReportValidate v =
        some (synthesize_sales_brief research_data user_profile user_id mo runResult)) ∨
      degradedShape (synthesize_sales_brief research_data user_profile user_id mo runResult)) := by
  unfold synthesize_sales_brief
  cases hst : synthTry runResult mo with
  | ok r =>
    rcases synthTry_cases runResult mo r hst with ⟨v, hv⟩ | ⟨msg, rfl⟩
    · exact ⟨prepReportValidate_range hv, Or.inl ⟨v, hv⟩⟩
    · exact ⟨(create_error_report_shape mo msg).2, Or.inr (create_error_report_shape mo msg).1⟩
  | error e =>
    exact ⟨(fallbackErrorReport_shape mo e).2, Or.inr (fallbackErrorReport_shape mo e).1⟩

end SalesPrep
